import Mathlib

set_option maxRecDepth 100000

/-!
Shallow embedding of scripts/gen_input_table.py (the ProBin input-table
generator).  Python dictionaries are modelled as insertion-ordered
association lists, Python floats as exact rationals, and writes to
standard output as an accumulated output string paired with a Bool that
is false when the function aborts (an uncaught exception or a failed
assert) before running to completion.
-/

/-- Lookup in an insertion-ordered association list: Python `d[k]`,
returning `none` where Python raises KeyError. -/
def dictLookup {β : Type} : List (String × β) → String → Option β
  | [], _ => none
  | (k', v) :: d, k => if k' = k then some v else dictLookup d k

/-- Assignment `d[k] = v` on an insertion-ordered association list: an
existing key keeps its position and gets the new value, a new key is
appended at the end, as in a Python dict. -/
def dictInsert {β : Type} : List (String × β) → String → β → List (String × β)
  | [], k, v => [(k, v)]
  | (k', v') :: d, k, v =>
    if k' = k then (k, v) :: d else (k', v') :: dictInsert d k v

/-- One parsed line of the genomeCoverageBed histogram, keeping the
fields the script reads: cols[0] (contig id), int(cols[1]) (depth
value) and float(cols[4]) (frequency fraction); cols[2] and cols[3]
are never used by the source. -/
structure BedLine where
  contig : String
  depth : Int
  freq : ℚ
  deriving DecidableEq, Repr

/-- The per-contig record built by get_bedcov_dict: the inner Python
dict can hold the keys "cov_mean" and "percentage_covered", either of
which may be absent. -/
structure BedRec where
  cov_mean : Option ℚ
  percentage_covered : Option ℚ
  deriving DecidableEq, Repr

/-- The mapping returned by get_bedcov_dict. -/
abbrev BedDict := List (String × BedRec)

/-- Processing of one histogram line inside get_bedcov_dict's loop
(source lines 46-58): fetch the contig's record, creating an empty one
on KeyError, then either set percentage_covered (zero-depth bucket) or
accumulate into cov_mean. -/
def bedStep (d : BedDict) (l : BedLine) : BedDict :=
  let r := (dictLookup d l.contig).getD ⟨none, none⟩
  if l.depth = 0 then
    dictInsert d l.contig { r with percentage_covered := some (100 - l.freq * 100) }
  else
    dictInsert d l.contig
      { r with cov_mean := some (r.cov_mean.getD 0 + (l.depth : ℚ) * l.freq) }

/-- get_bedcov_dict on the already-split histogram lines. -/
def get_bedcov_dict (lines : List BedLine) : BedDict :=
  lines.foldl bedStep []

/-- Python str.split(c) on a string viewed as its character list. -/
def splitChar (c : Char) : List Char → List (List Char)
  | [] => [[]]
  | a :: as =>
    if a = c then [] :: splitChar c as
    else (a :: (splitChar c as).headD []) :: (splitChar c as).tail

/-- The line list get_bedcov_dict iterates over when its argument is
not a file path, i.e. bedcoverage.split('\n')[:-1] (source line 44). -/
def bedcovContentLines (content : List Char) : List (List Char) :=
  (splitChar '\n' content).dropLast

/-- Concatenation of newline-terminated segments: each element of ls
followed by one newline character. -/
def joinNl (ls : List (List Char)) : List Char :=
  ls.foldr (fun l r => l ++ '\n' :: r) []

/-- The frequency-fraction total over all histogram lines of one
contig, used to state the convergence property of cov_mean. -/
def freqSum (acc : String) (lines : List BedLine) : ℚ :=
  ((lines.filter (fun l => decide (l.contig = acc))).map BedLine.freq).sum

/-- The weighted depth sum of a contig's positive-depth histogram
lines, accumulated in input-line order. -/
def wsum (acc : String) (lines : List BedLine) : ℚ :=
  ((lines.filter (fun l => decide (l.contig = acc ∧ l.depth ≠ 0))).map
    (fun l => (l.depth : ℚ) * l.freq)).sum

/-- Left-pad a digit string with zeros to width k. -/
def padZeros (k : Nat) (s : String) : String :=
  String.mk (List.replicate (k - s.length) '0') ++ s

/-- Python "%f" formatting (fixed point, 6 decimal places) of a
numeric value, modelled on exact rationals. -/
def pyF6 (q : ℚ) : String :=
  let m : Int := round (q * 1000000)
  (if m < 0 then "-" else "") ++ toString (m.natAbs / 1000000) ++ "."
    ++ padZeros 6 (toString (m.natAbs % 1000000))

/-- Python str() of a float whose value is a short exact decimal: the
shortest decimal expansion, with at least one fractional digit (so
str(50.0) is "50.0"). -/
def pyFloatStr (q : ℚ) : String :=
  let k := ((List.range 18).find? (fun j => (q * (10 : ℚ) ^ j).den = 1)).getD 17
  let e := max k 1
  let m : Int := (q * (10 : ℚ) ^ e).num
  (if m < 0 then "-" else "") ++ toString (m.natAbs / 10 ^ e) ++ "."
    ++ padZeros e (toString (m.natAbs % 10 ^ e))

/-- The fixed taxonomy rank names (source line 16). -/
def TAXONOMY : List String := ["phylum", "class", "order", "family", "genus", "species"]

/-- Python line.split(','). -/
def pySplitComma (s : String) : List String :=
  (splitChar ',' s.data).map String.mk

/-- Python s.rstrip('\n'): remove trailing newline characters. -/
def rstripNl (s : String) : String :=
  String.mk ((s.data.reverse.dropWhile (fun c => c = '\n')).reverse)

/-- The mapping returned by get_taxonomy_dict. -/
abbrev TaxDict := List (String × List (String × String))

/-- The inner dict built for one 7-field taxonomy line:
dict(zip(TAXONOMY, cols[1:-1] + [cols[-1].rstrip('\n')])). -/
def taxEntry (cols : List String) : List (String × String) :=
  List.zip TAXONOMY ((cols.drop 1).dropLast ++ [rstripNl (cols.getLastD "")])

/-- Loop of get_taxonomy_dict (source lines 117-124); none models the
AssertionError escaping when a line does not split on commas into
exactly 7 fields. -/
def taxGo (d : TaxDict) : List String → Option TaxDict
  | [] => some d
  | l :: ls =>
    let cols := pySplitComma l
    if cols.length = TAXONOMY.length + 1 then
      taxGo (dictInsert d (cols.headD "") (taxEntry cols)) ls
    else
      none

/-- get_taxonomy_dict on the taxonomy file's lines, newlines included,
as Python file iteration yields them. -/
def get_taxonomy_dict (lines : List String) : Option TaxDict :=
  taxGo [] lines

/-- The per-record entry of the FASTA stats dict built by
get_gc_and_len_dict: keys "length" and "GC". -/
structure FastaRec where
  length : Nat
  GC : ℚ
  deriving DecidableEq, Repr

/-- The mapping returned by get_gc_and_len_dict. -/
abbrev FastaDict := List (String × FastaRec)

/-- The first header write of print_input_table (source line 67):
("%s" + "\t%s" * 8) % (('contig', 'length', 'GC') + TAXONOMY). -/
def headerNine : String :=
  String.join (["contig"] ++ (["length", "GC"] ++ TAXONOMY).map (fun s => "\t" ++ s))

/-- One iteration of the indexed header loop (source line 71); note the
trailing newline written for every sample. -/
def sampleHdrIdx (i : Nat) : String :=
  "\tcov_mean_sample_" ++ toString i ++ "\tpercentage_covered_sample_" ++ toString i ++ "\n"

/-- One iteration of the named header loop (source line 76). -/
def sampleHdrName (sn : String) : String :=
  "\tcov_mean_" ++ sn ++ "\tpercentage_covered_" ++ sn ++ "\n"

/-- The two coverage columns one bedcov dict contributes to a contig's
row (source lines 100-107): the try block prints both values "%f"
formatted with percentage_covered defaulting to 100, and a KeyError
from bcd[acc] or from the "cov_mean" lookup prints "\t0\t0". -/
def sampleCols (bcd : BedDict) (acc : String) : String :=
  match dictLookup bcd acc with
  | none => "\t0\t0"
  | some r =>
    match r.cov_mean with
    | none => "\t0\t0"
    | some cm => "\t" ++ pyF6 cm ++ "\t" ++ pyF6 (r.percentage_covered.getD 100)

/-- The six taxonomy columns of a contig's row (source lines 91-95): a
missing contig or rank key prints "\tN/A". -/
def taxCols (td : TaxDict) (acc : String) : String :=
  String.join (TAXONOMY.map (fun t =>
    match dictLookup td acc with
    | none => "\tN/A"
    | some d =>
      match dictLookup d t with
      | none => "\tN/A"
      | some v => "\t" ++ v))

/-- One data row of the table (source lines 80-108). -/
def contigRow (acc : String) (fr : FastaRec) (td : TaxDict) (bcds : List BedDict) : String :=
  acc ++ "\t" ++ toString fr.length ++ "\t" ++ pyFloatStr fr.GC ++ taxCols td acc
    ++ String.join (bcds.map (fun b => sampleCols b acc)) ++ "\n"

/-- All data rows, one per contig of the FASTA dict in insertion
order. -/
def tableBody (fd : FastaDict) (td : TaxDict) (bcds : List BedDict) : String :=
  String.join (fd.map (fun kv => contigRow kv.1 kv.2 td bcds))

/-- print_input_table (source lines 63-108): the text written to
stdout, paired with true when the function ran to completion and false
when an assert failed after the already-written prefix. -/
def print_input_table (fd : FastaDict) (td : TaxDict) (bcds : List BedDict)
    (samplenames : Option (List String)) : String × Bool :=
  match samplenames with
  | none =>
    let hdr := headerNine ++ String.join ((List.range bcds.length).map sampleHdrIdx)
    if fd.length > 0 then (hdr ++ tableBody fd td bcds, true) else (hdr, false)
  | some sns =>
    if sns.length = bcds.length then
      let hdr := headerNine ++ String.join (sns.map sampleHdrName)
      if fd.length > 0 then (hdr ++ tableBody fd td bcds, true) else (hdr, false)
    else (headerNine, false)

/-- The sample-name list built from the --samplenames file's raw lines
(source line 157): s[:-1] for each line. -/
def read_samplenames (snLines : List String) : List String :=
  snLines.map (fun s => s.dropRight 1)

/-- generate_input_table (source lines 129-143), with each BAM file's
external genomeCoverageBed output (exit status 0) supplied as parsed
histogram lines; a taxonomy assert failure aborts before anything is
written to stdout. -/
def generate_input_table (fd : FastaDict) (taxLines : List String)
    (covOutputs : List (List BedLine)) (samplenames : Option (List String)) : String × Bool :=
  match get_taxonomy_dict taxLines with
  | none => ("", false)
  | some td => print_input_table fd td (covOutputs.map get_bedcov_dict) samplenames

/-- The __main__ path after argument parsing (source lines 146-163):
an optional samplenames file (its raw lines), the BAM file arguments,
and the external coverage outputs; the name-count check runs before
any table output. -/
def main_run (snFileLines : Option (List String)) (bamfiles : List String)
    (covOutputs : List (List BedLine)) (fd : FastaDict) (taxLines : List String) :
    String × Bool :=
  match snFileLines with
  | some sl =>
    let samplenames := read_samplenames sl
    if samplenames.length = bamfiles.length then
      generate_input_table fd taxLines covOutputs (some samplenames)
    else ("", false)
  | none => generate_input_table fd taxLines covOutputs none

/-! ## Basic association-list lemmas -/

lemma dictLookup_insert_self {β : Type} (d : List (String × β)) (k : String) (v : β) :
    dictLookup (dictInsert d k v) k = some v := by
  induction d with
  | nil => simp [dictInsert, dictLookup]
  | cons kv d ih =>
    obtain ⟨k', v'⟩ := kv
    by_cases h : k' = k
    · simp [dictInsert, h, dictLookup]
    · simp [dictInsert, h, dictLookup, ih]

lemma dictLookup_insert_ne {β : Type} (d : List (String × β)) (k k' : String) (v : β)
    (h : k ≠ k') : dictLookup (dictInsert d k v) k' = dictLookup d k' := by
  induction d with
  | nil => simp [dictInsert, dictLookup, h]
  | cons kv d ih =>
    obtain ⟨k₀, v₀⟩ := kv
    by_cases h₀ : k₀ = k
    · subst h₀; simp [dictInsert, dictLookup, h]
    · simp [dictInsert, h₀, dictLookup, ih]

lemma mem_dictInsert {β : Type} (d : List (String × β)) (k : String) (v : β)
    (kv : String × β) (h : kv ∈ dictInsert d k v) : kv ∈ d ∨ kv = (k, v) := by
  induction d with
  | nil => simp [dictInsert] at h; simp [h]
  | cons kv₀ d ih =>
    obtain ⟨k₀, v₀⟩ := kv₀
    by_cases h₀ : k₀ = k
    · simp [dictInsert, h₀] at h
      rcases h with h | h
      · right; simp [h]
      · left; simp [h]
    · simp [dictInsert, h₀] at h
      rcases h with h | h
      · left; simp [h]
      · rcases ih h with h' | h'
        · left; simp [h']
        · right; exact h'

/-! ## Claim C3 -/

/-- Claim C3: on a sequence-stats mapping with the single record ctgA
(length 10, GC 50.0), the taxonomy mapping built from one line
"ctgA,P,C,O,F,G,S", one coverage mapping with cov_mean 5.0 and
percentage_covered 80.0 for ctgA, and no sample names,
print_input_table writes exactly the expected header line followed by
the expected single data line, and completes. -/
theorem c3_end_to_end :
    (get_taxonomy_dict ["ctgA,P,C,O,F,G,S\n"]).map
      (fun td => print_input_table [("ctgA", ⟨10, 50⟩)] td
        [[("ctgA", ⟨some 5, some 80⟩)]] none)
    = some ("contig\tlength\tGC\tphylum\tclass\torder\tfamily\tgenus\tspecies\tcov_mean_sample_0\tpercentage_covered_sample_0\nctgA\t10\t50.0\tP\tC\tO\tF\tG\tS\t5.000000\t80.000000\n", true) := by
  with_unfolding_all decide

/-! ## Claim C1 -/

/-- Claim C1 (bug evaluation): print_input_table writes a newline
after each sample's pair of header columns, so with two samples the
text preceding the first data row spans two lines instead of one: this
concrete two-sample, one-contig run produces output with three
newlines (two header lines and one data row) where a single-line
header would give two. -/
theorem c1_header_spans_sample_count_lines :
    (print_input_table [("ctgA", ⟨10, 50⟩)]
        [("ctgA", taxEntry (pySplitComma "ctgA,P,C,O,F,G,S\n"))] [[], []] none).1
      = "contig\tlength\tGC\tphylum\tclass\torder\tfamily\tgenus\tspecies\tcov_mean_sample_0\tpercentage_covered_sample_0\n\tcov_mean_sample_1\tpercentage_covered_sample_1\nctgA\t10\t50.0\tP\tC\tO\tF\tG\tS\t0\t0\t0\t0\n"
    ∧ (print_input_table [("ctgA", ⟨10, 50⟩)]
        [("ctgA", taxEntry (pySplitComma "ctgA,P,C,O,F,G,S\n"))] [[], []] none).1.data.count '\n'
      = 3 := by
  with_unfolding_all decide

/-! ## Claim C2 -/

/-- Claim C2 (counterexample): after a single zero-depth histogram
line for ctgA, the contig key is present in the coverage mapping (with
percentage_covered 30 and no cov_mean), yet the sample columns printed
for it are the literal "\t0\t0" — refuting the claim that 0/0 is
printed only when the contig key is entirely absent. -/
theorem c2_present_key_prints_zero :
    dictLookup (get_bedcov_dict [⟨"ctgA", 0, 7/10⟩]) "ctgA" = some ⟨none, some 30⟩
    ∧ sampleCols (get_bedcov_dict [⟨"ctgA", 0, 7/10⟩]) "ctgA" = "\t0\t0" := by
  with_unfolding_all decide

/-- Claim C2 (amended): for a contig key present in a coverage
mapping, the row prints the formatted cov_mean and percentage_covered
(the latter defaulting to 100) exactly when the entry has a cov_mean;
when the entry lacks cov_mean the literal "\t0\t0" is printed even
though the key is present. -/
theorem c2_sample_columns_by_cov_mean (bcd : BedDict) (acc : String) (r : BedRec)
    (h : dictLookup bcd acc = some r) :
    (∀ cm, r.cov_mean = some cm →
        sampleCols bcd acc = "\t" ++ pyF6 cm ++ "\t" ++ pyF6 (r.percentage_covered.getD 100))
    ∧ (r.cov_mean = none → sampleCols bcd acc = "\t0\t0") := by
  constructor
  · intro cm hcm
    simp [sampleCols, h, hcm]
  · intro hcm
    simp [sampleCols, h, hcm]

/-- Witness for the amended claim C2 at a concrete input. -/
theorem c2_sample_columns_witness :
    sampleCols [("ctgA", ⟨some 5, none⟩)] "ctgA" = "\t" ++ pyF6 5 ++ "\t" ++ pyF6 100 :=
  (c2_sample_columns_by_cov_mean [("ctgA", ⟨some 5, none⟩)] "ctgA" ⟨some 5, none⟩
    (by decide)).1 5 rfl

/-! ## Claim C6 -/

/-- Claim C6: a contig key entirely absent from a coverage mapping
yields the literal characters "\t0\t0" as that sample's two columns of
the data row. -/
theorem c6_absent_contig_zero (bcd : BedDict) (acc : String)
    (h : dictLookup bcd acc = none) : sampleCols bcd acc = "\t0\t0" := by
  simp [sampleCols, h]

/-- Witness for claim C6 at a concrete input. -/
theorem c6_absent_contig_zero_witness : sampleCols [("other", ⟨some 5, some 80⟩)] "ctgA" = "\t0\t0" :=
  c6_absent_contig_zero [("other", ⟨some 5, some 80⟩)] "ctgA" (by decide)

/-! ## Claim C10 -/

/-- Claim C10: calling print_input_table with a samplenames list whose
length differs from the coverage-mapping list fails its assertion
(completion flag false), but only after the fixed nine-column header
prefix has already been written to stdout. -/
theorem c10_assert_after_nine_header (fd : FastaDict) (td : TaxDict) (bcds : List BedDict)
    (sns : List String) (h : sns.length ≠ bcds.length) :
    print_input_table fd td bcds (some sns) = (headerNine, false)
    ∧ headerNine = "contig\tlength\tGC\tphylum\tclass\torder\tfamily\tgenus\tspecies" := by
  refine ⟨?_, by decide⟩
  simp [print_input_table, h]

/-- Witness for claim C10 at a concrete input. -/
theorem c10_assert_after_nine_header_witness :
    print_input_table [] [] [] (some ["s1"]) = (headerNine, false)
    ∧ headerNine = "contig\tlength\tGC\tphylum\tclass\torder\tfamily\tgenus\tspecies" :=
  c10_assert_after_nine_header [] [] [] ["s1"] (by decide)

/-! ## Claim C8 -/

/-- Claim C8: when the samplenames file provides a number of names
different from the number of BAM files, the run fails before any table
output is produced: nothing at all is written to stdout. -/
theorem c8_samplenames_mismatch (sl bamfiles : List String)
    (cov : List (List BedLine)) (fd : FastaDict) (tax : List String)
    (h : sl.length ≠ bamfiles.length) :
    main_run (some sl) bamfiles cov fd tax = ("", false) := by
  simp [main_run, read_samplenames, h]

/-- Witness for claim C8 at a concrete input: two names against three
BAM files. -/
theorem c8_samplenames_mismatch_witness :
    main_run (some ["a\n", "b\n"]) ["x.bam", "y.bam", "z.bam"] [] [] [] = ("", false) :=
  c8_samplenames_mismatch ["a\n", "b\n"] ["x.bam", "y.bam", "z.bam"] [] [] [] (by decide)

/-! ## Coverage-aggregation lemmas -/

lemma bedStep_cov (d : BedDict) (l : BedLine) (acc : String) :
    ((dictLookup (bedStep d l) acc).bind BedRec.cov_mean).getD 0
      = ((dictLookup d acc).bind BedRec.cov_mean).getD 0
        + (if l.contig = acc ∧ l.depth ≠ 0 then (l.depth : ℚ) * l.freq else 0) := by
  by_cases hc : l.contig = acc
  · subst hc
    cases hq : dictLookup d l.contig with
    | none =>
      by_cases hd : l.depth = 0
      · simp [bedStep, hd, hq, dictLookup_insert_self]
      · simp [bedStep, hd, hq, dictLookup_insert_self]
    | some r =>
      by_cases hd : l.depth = 0
      · simp [bedStep, hd, hq, dictLookup_insert_self]
      · simp [bedStep, hd, hq, dictLookup_insert_self]
  · by_cases hd : l.depth = 0 <;>
      simp [bedStep, hd, hc, dictLookup_insert_ne _ _ _ _ hc]

lemma bedStep_perc (d : BedDict) (l : BedLine) (acc : String) :
    (dictLookup (bedStep d l) acc).bind BedRec.percentage_covered
      = if l.contig = acc ∧ l.depth = 0 then some (100 - l.freq * 100)
        else (dictLookup d acc).bind BedRec.percentage_covered := by
  by_cases hc : l.contig = acc
  · subst hc
    cases hq : dictLookup d l.contig with
    | none =>
      by_cases hd : l.depth = 0
      · simp [bedStep, hd, hq, dictLookup_insert_self]
      · simp [bedStep, hd, hq, dictLookup_insert_self]
    | some r =>
      by_cases hd : l.depth = 0
      · simp [bedStep, hd, hq, dictLookup_insert_self]
      · simp [bedStep, hd, hq, dictLookup_insert_self]
  · by_cases hd : l.depth = 0 <;>
      simp [bedStep, hd, hc, dictLookup_insert_ne _ _ _ _ hc]

lemma bedStep_hasCov (d : BedDict) (l : BedLine) (acc : String) :
    (dictLookup (bedStep d l) acc).bind BedRec.cov_mean ≠ none
      ↔ ((l.contig = acc ∧ l.depth ≠ 0)
          ∨ (dictLookup d acc).bind BedRec.cov_mean ≠ none) := by
  by_cases hc : l.contig = acc
  · subst hc
    cases hq : dictLookup d l.contig with
    | none =>
      by_cases hd : l.depth = 0
      · simp [bedStep, hd, hq, dictLookup_insert_self]
      · simp [bedStep, hd, hq, dictLookup_insert_self]
    | some r =>
      by_cases hd : l.depth = 0
      · simp [bedStep, hd, hq, dictLookup_insert_self]
      · simp [bedStep, hd, hq, dictLookup_insert_self]
  · by_cases hd : l.depth = 0 <;>
      simp [bedStep, hd, hc, dictLookup_insert_ne _ _ _ _ hc]

lemma foldl_bedStep_cov (acc : String) :
    ∀ (ls : List BedLine) (d : BedDict),
      ((dictLookup (ls.foldl bedStep d) acc).bind BedRec.cov_mean).getD 0
        = ((dictLookup d acc).bind BedRec.cov_mean).getD 0 + wsum acc ls := by
  intro ls
  induction ls with
  | nil => intro d; simp [wsum]
  | cons l ls ih =>
    intro d
    rw [List.foldl_cons, ih (bedStep d l), bedStep_cov]
    by_cases h : l.contig = acc ∧ l.depth ≠ 0
    · simp [wsum, h, add_assoc]
    · simp [wsum, h]

lemma foldl_bedStep_perc_none (acc : String) :
    ∀ (ls : List BedLine) (d : BedDict),
      (∀ l ∈ ls, l.contig = acc → l.depth ≠ 0) →
      (dictLookup (ls.foldl bedStep d) acc).bind BedRec.percentage_covered
        = (dictLookup d acc).bind BedRec.percentage_covered := by
  intro ls
  induction ls with
  | nil => intro d _; rfl
  | cons l ls ih =>
    intro d h
    have hl : ¬(l.contig = acc ∧ l.depth = 0) := by
      rintro ⟨h1, h2⟩
      exact h l (by simp) h1 h2
    rw [List.foldl_cons, ih (bedStep d l) (fun x hx => h x (by simp [hx])),
      bedStep_perc, if_neg hl]

lemma foldl_bedStep_hasCov (acc : String) :
    ∀ (ls : List BedLine) (d : BedDict),
      (dictLookup (ls.foldl bedStep d) acc).bind BedRec.cov_mean ≠ none
        ↔ ((∃ l ∈ ls, l.contig = acc ∧ l.depth ≠ 0)
            ∨ (dictLookup d acc).bind BedRec.cov_mean ≠ none) := by
  intro ls
  induction ls with
  | nil => intro d; simp
  | cons l ls ih =>
    intro d
    rw [List.foldl_cons, ih (bedStep d l), bedStep_hasCov]
    constructor
    · rintro (⟨x, hx, hx'⟩ | hl | h)
      · exact Or.inl ⟨x, by simp [hx], hx'⟩
      · exact Or.inl ⟨l, by simp, hl⟩
      · exact Or.inr h
    · rintro (⟨x, hx, hx'⟩ | h)
      · rcases List.mem_cons.mp hx with hx | hx
        · subst hx; exact Or.inr (Or.inl hx')
        · exact Or.inl ⟨x, hx, hx'⟩
      · exact Or.inr (Or.inr h)

/-! ## Claim C4 -/

/-- Claim C4: for a coverage histogram in which a contig's
frequency-fraction fields sum to 1 (and the contig has at least one
positive-depth bucket, so a cov_mean is reported), the cov_mean
recorded by get_bedcov_dict for that contig equals the weighted
average depth: the sum, in input-line order, of depth-value times
frequency-fraction over that contig's positive-depth buckets. -/
theorem c4_cov_mean_weighted_sum (lines : List BedLine) (acc : String)
    (hfreq : freqSum acc lines = 1)
    (hpos : ∃ l ∈ lines, l.contig = acc ∧ l.depth ≠ 0) :
    (dictLookup (get_bedcov_dict lines) acc).bind BedRec.cov_mean
      = some (wsum acc lines) := by
  have h1 := foldl_bedStep_cov acc lines []
  have h2 := (foldl_bedStep_hasCov acc lines []).mpr (Or.inl hpos)
  unfold get_bedcov_dict
  simp only [dictLookup, Option.bind_none, Option.getD_none, zero_add] at h1
  obtain ⟨q, hq⟩ := Option.ne_none_iff_exists'.mp h2
  rw [hq] at h1 ⊢
  simp only [Option.getD_some] at h1
  rw [h1]
  simp

/-- Witness for claim C4 at a concrete input: one line of depth 2 and
frequency 1. -/
theorem c4_cov_mean_weighted_sum_witness :
    (dictLookup (get_bedcov_dict [⟨"c", 2, 1⟩]) "c").bind BedRec.cov_mean = some 2 := by
  have h := c4_cov_mean_weighted_sum [⟨"c", 2, 1⟩] "c" (by with_unfolding_all decide)
    ⟨⟨"c", 2, 1⟩, by with_unfolding_all decide, by with_unfolding_all decide⟩
  rw [h]
  with_unfolding_all decide

/-! ## Claim C7 -/

/-- Claim C7: a contig appearing in the histogram only with
positive-depth lines gets a record with a cov_mean and no
percentage_covered, and the writer prints exactly 100.000000 in its
percentage_covered column, supplied as the default for the absent
key. -/
theorem c7_full_coverage_default (lines : List BedLine) (acc : String)
    (hex : ∃ l ∈ lines, l.contig = acc)
    (hall : ∀ l ∈ lines, l.contig = acc → 0 < l.depth) :
    ∃ cm, dictLookup (get_bedcov_dict lines) acc = some ⟨some cm, none⟩
      ∧ sampleCols (get_bedcov_dict lines) acc
        = "\t" ++ pyF6 cm ++ "\t" ++ "100.000000" := by
  obtain ⟨l0, hl0, hc0⟩ := hex
  have hpos : ∃ l ∈ lines, l.contig = acc ∧ l.depth ≠ 0 :=
    ⟨l0, hl0, hc0, (hall l0 hl0 hc0).ne'⟩
  have h2 := (foldl_bedStep_hasCov acc lines []).mpr (Or.inl hpos)
  have h3 := foldl_bedStep_perc_none acc lines [] (fun l hl hc => (hall l hl hc).ne')
  unfold get_bedcov_dict
  cases hlk : dictLookup (lines.foldl bedStep []) acc with
  | none =>
    rw [hlk] at h2
    simp at h2
  | some r =>
    rw [hlk] at h2 h3
    simp only [dictLookup, Option.some_bind, Option.bind_none] at h2 h3
    obtain ⟨cm, hcm⟩ := Option.ne_none_iff_exists'.mp h2
    have hr : r = ⟨some cm, none⟩ := by
      obtain ⟨a, b⟩ := r
      simp_all
    subst hr
    refine ⟨cm, rfl, ?_⟩
    simp [sampleCols, hlk,
      (by with_unfolding_all decide : pyF6 100 = "100.000000")]

/-- Witness for claim C7 at a concrete input: a single positive-depth
line. -/
theorem c7_full_coverage_default_witness :
    ∃ cm, dictLookup (get_bedcov_dict [⟨"c", 3, 1⟩]) "c" = some ⟨some cm, none⟩
      ∧ sampleCols (get_bedcov_dict [⟨"c", 3, 1⟩]) "c"
        = "\t" ++ pyF6 cm ++ "\t" ++ "100.000000" :=
  c7_full_coverage_default [⟨"c", 3, 1⟩] "c"
    ⟨⟨"c", 3, 1⟩, by with_unfolding_all decide, rfl⟩
    (by with_unfolding_all decide)

/-! ## Taxonomy-reader lemmas -/

lemma taxGo_eq_none_iff (ls : List String) :
    ∀ d : TaxDict, (taxGo d ls = none ↔ ∃ l ∈ ls, (pySplitComma l).length ≠ 7) := by
  induction ls with
  | nil => intro d; simp [taxGo]
  | cons l ls ih =>
    intro d
    by_cases h : (pySplitComma l).length = TAXONOMY.length + 1
    · have h7 : (pySplitComma l).length = 7 := h
      simp [taxGo, h, ih, h7, TAXONOMY]
    · have h7 : (pySplitComma l).length ≠ 7 := h
      simp [taxGo, h]
      exact Or.inl h7

lemma taxGo_mem (ls : List String) :
    ∀ d d' : TaxDict, taxGo d ls = some d' → ∀ kv ∈ d',
      kv ∈ d ∨ ∃ l ∈ ls, (pySplitComma l).length = 7
        ∧ kv = ((pySplitComma l).headD "", taxEntry (pySplitComma l)) := by
  induction ls with
  | nil =>
    intro d d' h kv hkv
    simp [taxGo] at h
    subst h
    exact Or.inl hkv
  | cons l ls ih =>
    intro d d' h kv hkv
    by_cases hc : (pySplitComma l).length = TAXONOMY.length + 1
    · simp only [taxGo, hc, if_true] at h
      rcases ih _ d' h kv hkv with h' | ⟨x, hx, hx'⟩
      · rcases mem_dictInsert _ _ _ _ h' with h'' | h''
        · exact Or.inl h''
        · refine Or.inr ⟨l, by simp, ?_, h''⟩
          simpa [TAXONOMY] using hc
      · exact Or.inr ⟨x, by simp [hx], hx'⟩
    · simp [taxGo, hc] at h

/-! ## Claim C5 -/

/-- Claim C5: get_taxonomy_dict aborts without returning a mapping iff
some line does not split on commas into exactly 7 fields; and every
entry of a returned mapping pairs a line's first field with the six
fixed rank names zipped against that line's fields 2 through 7 in
order, the trailing newline stripped from the last field. -/
theorem c5_taxonomy_strict (lines : List String) :
    (get_taxonomy_dict lines = none ↔ ∃ l ∈ lines, (pySplitComma l).length ≠ 7)
    ∧ (∀ d, get_taxonomy_dict lines = some d → ∀ kv ∈ d,
        ∃ l ∈ lines, (pySplitComma l).length = 7
          ∧ kv = ((pySplitComma l).headD "", taxEntry (pySplitComma l))) := by
  constructor
  · exact taxGo_eq_none_iff lines []
  · intro d h kv hkv
    rcases taxGo_mem lines [] d h kv hkv with h' | h'
    · simp at h'
    · exact h'

/-- Witness for claim C5: a 3-field line aborts the reader; the single
entry produced from a well-formed 7-field line has the described
shape. -/
theorem c5_taxonomy_strict_witness :
    get_taxonomy_dict ["a,b,c\n"] = none
    ∧ ∃ l ∈ ["ctgA,P,C,O,F,G,S\n"], (pySplitComma l).length = 7
        ∧ (("ctgA" : String), taxEntry (pySplitComma "ctgA,P,C,O,F,G,S\n"))
          = ((pySplitComma l).headD "", taxEntry (pySplitComma l)) :=
  ⟨(c5_taxonomy_strict ["a,b,c\n"]).1.mpr ⟨"a,b,c\n", by simp, by decide⟩,
   (c5_taxonomy_strict ["ctgA,P,C,O,F,G,S\n"]).2
     [("ctgA", taxEntry (pySplitComma "ctgA,P,C,O,F,G,S\n"))] (by decide)
     ("ctgA", taxEntry (pySplitComma "ctgA,P,C,O,F,G,S\n")) (by simp)⟩

/-! ## Content-splitting lemmas -/

lemma splitChar_ne_nil (c : Char) (l : List Char) : splitChar c l ≠ [] := by
  cases l with
  | nil => simp [splitChar]
  | cons a as => by_cases h : a = c <;> simp [splitChar, h]

lemma getLastD_irrel {α : Type} : ∀ (l : List α), l ≠ [] → ∀ d d' : α,
    l.getLastD d = l.getLastD d' := by
  intro l
  cases l with
  | nil => intro h; exact absurd rfl h
  | cons a as => intro _ d d'; rfl

lemma dropLast_cons_ne {α : Type} (a : α) (l : List α) (h : l ≠ []) :
    (a :: l).dropLast = a :: l.dropLast := by
  cases l with
  | nil => exact absurd rfl h
  | cons b bs => rfl

lemma splitChar_no_sep (c : Char) : ∀ (t : List Char), c ∉ t → splitChar c t = [t] := by
  intro t
  induction t with
  | nil => intro _; rfl
  | cons a as ih =>
    intro h
    have ha : ¬a = c := fun e => h (by simp [e])
    have has : c ∉ as := fun e => h (by simp [e])
    simp [splitChar, ha, ih has]

lemma splitChar_cons_pos (c : Char) (as : List Char) :
    splitChar c (c :: as) = [] :: splitChar c as := by
  simp [splitChar]

lemma splitChar_cons_neg (c a : Char) (as : List Char) (h : ¬a = c) :
    splitChar c (a :: as) = (a :: (splitChar c as).headD []) :: (splitChar c as).tail := by
  simp [splitChar, h]

lemma splitChar_append (c : Char) (t : List Char) (ht : c ∉ t) :
    ∀ s : List Char, splitChar c (s ++ t)
      = (splitChar c s).dropLast ++ [(splitChar c s).getLastD [] ++ t] := by
  intro s
  induction s with
  | nil => simp [splitChar, splitChar_no_sep c t ht]
  | cons a s ih =>
    by_cases ha : a = c
    · subst ha
      rw [List.cons_append, splitChar_cons_pos, splitChar_cons_pos, ih,
        dropLast_cons_ne _ _ (splitChar_ne_nil a s)]
      obtain ⟨y, ys, hy⟩ := List.exists_cons_of_ne_nil (splitChar_ne_nil a s)
      simp [hy, List.getLastD_cons]
    · have hY := splitChar_ne_nil c s
      obtain ⟨y, ys, hy⟩ := List.exists_cons_of_ne_nil hY
      rw [List.cons_append, splitChar_cons_neg c a (s ++ t) ha,
        splitChar_cons_neg c a s ha, ih, hy]
      cases ys with
      | nil => simp
      | cons z zs =>
        simp [List.dropLast_cons₂, List.getLastD_cons, List.headD_cons,
          List.tail_cons, List.cons_append]

lemma splitChar_append_cons (c : Char) (rest : List Char) :
    ∀ l : List Char, c ∉ l → splitChar c (l ++ c :: rest) = l :: splitChar c rest := by
  intro l
  induction l with
  | nil => intro _; simp [splitChar_cons_pos]
  | cons a l ih =>
    intro h
    have ha : ¬a = c := fun e => h (by simp [e])
    have hl : c ∉ l := fun e => h (by simp [e])
    rw [List.cons_append, splitChar_cons_neg c a _ ha, ih hl]
    rfl

lemma splitChar_joinNl :
    ∀ ls : List (List Char), (∀ l ∈ ls, '\n' ∉ l) →
      splitChar '\n' (joinNl ls) = ls ++ [[]] := by
  intro ls
  induction ls with
  | nil => intro _; rfl
  | cons l ls ih =>
    intro h
    have hl : '\n' ∉ l := h l (by simp)
    have hls : ∀ x ∈ ls, '\n' ∉ x := fun x hx => h x (by simp [hx])
    show splitChar '\n' (l ++ '\n' :: joinNl ls) = (l :: ls) ++ [[]]
    rw [splitChar_append_cons '\n' (joinNl ls) l hl, ih hls]
    rfl

/-! ## Claim C9 -/

/-- Claim C9: in content-string mode the line list get_bedcov_dict
iterates over consists of exactly the newline-terminated segments of
the string: appending newline-free text after the last newline leaves
the processed line list unchanged (the trailing characters are
silently dropped), and the line list of a string made of
newline-terminated segments is exactly those segments. -/
theorem c9_content_mode_lines :
    (∀ s t : List Char, '\n' ∉ t →
        bedcovContentLines (s ++ t) = bedcovContentLines s)
    ∧ (∀ ls : List (List Char), (∀ l ∈ ls, '\n' ∉ l) →
        bedcovContentLines (joinNl ls) = ls) := by
  constructor
  · intro s t ht
    unfold bedcovContentLines
    rw [splitChar_append '\n' t ht s, List.dropLast_concat]
  · intro ls hls
    unfold bedcovContentLines
    rw [splitChar_joinNl ls hls, List.dropLast_concat]

/-- Witness for claim C9: the final line "cd" without a trailing
newline is dropped, and two newline-terminated lines are both kept. -/
theorem c9_content_mode_lines_witness :
    bedcovContentLines ("ab\n".data ++ "cd".data) = bedcovContentLines "ab\n".data
    ∧ bedcovContentLines (joinNl ["ab".data, "cd".data]) = ["ab".data, "cd".data] :=
  ⟨c9_content_mode_lines.1 "ab\n".data "cd".data (by decide),
   c9_content_mode_lines.2 ["ab".data, "cd".data] (by decide)⟩
